import Mathlib

/-!
# Verification of the octopus short-link engine

Shallow embedding of the core of the `octopus` URL-shortener (Go) and proofs
about it.  Machine integers (`uint64`) are embedded as `Nat` with explicit
`% 2^64` where the Go code can overflow; fallible Go calls returning
`(value, error)` pairs are embedded either as `Except` (when the caller
branches on the error) or as `value × Bool` pairs (when the caller inspects
both components independently).

Sources embedded here:
* `internal/encoder/base32.go`   — the Base32 encoder;
* `internal/service/shortlink.go` — `Generate`, `Get`, `ExpandURL`,
  `generateWithCollision`, `buildCacheKey`, `buildResponse`, `hashString`;
* `internal/repository/mysql.go`  — query shapes of `GetShortLinkByCode`,
  `GetShortLinkByURL`, `CheckExistsByCode`;
* `internal/service/analytics.go` — `RecordAccess`, `GetStats`,
  `GetAnalytics`, `extractSource`, `getTopSources`;
* the fragment of Go's `net/url` package the services rely on
  (`Parse`, `Query`, `Values.Set`, `Values.Encode`, `URL.String`).
-/

namespace Octopus

/-! ## Encoder (internal/encoder/base32.go) -/

/-- `Base32Alphabet` from base32.go: the 32-symbol character set. -/
def Base32Alphabet : List Char := "ABCDEFGHIJKLMNOPQRSTUVWXYZ234567".toList

/-- `MinLength` from base32.go: the minimum short-code length. -/
def MinLength : Nat := 4

/-- `MaxLength` from base32.go: the maximum short-code length. -/
def MaxLength : Nat := 6

/-- The digit-emitting loop of `Base32Encoder.Encode`: for `i` from
`length-1` down to `0`, `result[i] = Base32Alphabet[n%32]; n = n/32`.
`encodeAux n k` is the list of the `k` base-32 digits of `n`, most
significant first (high bits of `n` beyond `32^k` are dropped). -/
def encodeAux : Nat → Nat → List Char
  | _, 0 => []
  | n, k + 1 => encodeAux (n / 32) k ++ [Base32Alphabet.getD (n % 32) 'A']

/-- `Base32Encoder.Encode` from base32.go: encodes `n` (a `uint64`,
embedded as `Nat`) to a Base32 string of the given length, the length
being clamped into `[MinLength, MaxLength]`. -/
def Encode (n : Nat) (length : Nat) : String :=
  let length := if length < MinLength ∨ MaxLength < length then MinLength else length
  ⟨encodeAux n length⟩

/-- The inner linear search of `Base32Encoder.Decode`: the index of `c` in
`Base32Alphabet`, or `none` when `c` is not in the alphabet. -/
def alphaIndex (c : Char) : Option Nat :=
  Base32Alphabet.findIdx? (fun a => a = c)

/-- The accumulating loop of `Base32Encoder.Decode`:
`result = result*32 + index` on `uint64` (hence the `% 2^64`), failing with
the offending character when it is outside the alphabet. -/
def decodeList (acc : Nat) : List Char → Except Char Nat
  | [] => .ok acc
  | c :: cs =>
    match alphaIndex c with
    | some i => decodeList ((acc * 32 + i) % 2 ^ 64) cs
    | none => .error c

/-- `Base32Encoder.Decode` from base32.go: case-insensitive inverse of
`Encode`; the `Except.error` case carries the invalid character
(`InvalidCharacterError`). -/
def Decode (s : String) : Except Char Nat :=
  decodeList 0 (s.data.map Char.toUpper)

/-! Round-trip infrastructure. -/

theorem encodeAux_length (n k : Nat) : (encodeAux n k).length = k := by
  induction k generalizing n with
  | zero => rfl
  | succ k ih => simp [encodeAux, ih]

theorem alphaIndex_getD (d : Nat) (hd : d < 32) :
    alphaIndex (Base32Alphabet.getD d 'A') = some d := by
  revert hd; revert d; decide

theorem toUpper_getD (d : Nat) (hd : d < 32) :
    (Base32Alphabet.getD d 'A').toUpper = Base32Alphabet.getD d 'A' := by
  revert hd; revert d; decide

theorem decodeList_append (acc : Nat) (xs ys : List Char) :
    decodeList acc (xs ++ ys) =
      match decodeList acc xs with
      | .ok r => decodeList r ys
      | .error e => .error e := by
  induction xs generalizing acc with
  | nil => rfl
  | cons c cs ih =>
    simp only [List.cons_append, decodeList]
    cases alphaIndex c with
    | some i => exact ih _
    | none => rfl

theorem decodeList_encodeAux (k : Nat) :
    ∀ acc n : Nat, n < 32 ^ k → acc * 32 ^ k + n < 2 ^ 64 →
      decodeList acc ((encodeAux n k).map Char.toUpper) = .ok (acc * 32 ^ k + n) := by
  induction k with
  | zero =>
    intro acc n hn _
    interval_cases n
    simp [encodeAux, decodeList]
  | succ k ih =>
    intro acc n hn hb
    have hdiv : n / 32 < 32 ^ k := by
      have : n < 32 ^ k * 32 := by
        calc n < 32 ^ (k + 1) := hn
        _ = 32 ^ k * 32 := by ring
      omega
    have hmono : acc * 32 ^ k + n / 32 < 2 ^ 64 := by
      have h1 : acc * 32 ^ k ≤ acc * 32 ^ (k + 1) := by
        apply Nat.mul_le_mul_left
        exact Nat.pow_le_pow_right (by norm_num) (by omega)
      have h2 : n / 32 ≤ n := Nat.div_le_self _ _
      omega
    have hmod : n % 32 < 32 := Nat.mod_lt _ (by norm_num)
    simp only [encodeAux, List.map_append, List.map_cons, List.map_nil]
    rw [decodeList_append, ih acc (n / 32) hdiv hmono]
    simp only [decodeList, toUpper_getD _ hmod, alphaIndex_getD _ hmod]
    have harith : (acc * 32 ^ k + n / 32) * 32 + n % 32 = acc * 32 ^ (k + 1) + n := by
      have := Nat.div_add_mod n 32
      ring_nf
      omega
    rw [harith, Nat.mod_eq_of_lt hb]

/-- C5: Encoder round-trip — for every length `L ∈ {4,5,6}` and every 64-bit
unsigned integer `n`, decoding the encoding of `n mod 32^L` at length `L`
returns exactly `n mod 32^L`. -/
theorem encode_decode_roundtrip (L : Nat) (hL : L = 4 ∨ L = 5 ∨ L = 6)
    (n : Nat) (_hn : n < 2 ^ 64) :
    Decode (Encode (n % 32 ^ L) L) = .ok (n % 32 ^ L) := by
  have hpow : (0:Nat) < 32 ^ L := Nat.pos_pow_of_pos _ (by norm_num)
  have hlt : n % 32 ^ L < 32 ^ L := Nat.mod_lt _ hpow
  have hsmall : 32 ^ L ≤ 2 ^ 64 := by
    rcases hL with h | h | h <;> subst h <;> norm_num
  have hclamp : (if L < MinLength ∨ MaxLength < L then MinLength else L) = L := by
    rcases hL with h | h | h <;> subst h <;> decide
  unfold Encode Decode
  rw [hclamp]
  have := decodeList_encodeAux L 0 (n % 32 ^ L) hlt (by omega)
  simpa using this

/-- Witness for C5 at `L = 4`, `n = 12345`. -/
theorem encode_decode_roundtrip_witness :
    Decode (Encode (12345 % 32 ^ 4) 4) = .ok (12345 % 32 ^ 4) :=
  encode_decode_roundtrip 4 (Or.inl rfl) 12345 (by norm_num)

/-! ## hashString (internal/service/shortlink.go) -/

/-- The UTF-8 bytes of one character, as seen by Go's `[]byte(s)`
conversion inside `hashString` (`h.Write([]byte(s))`). -/
def charUTF8 (c : Char) : List Nat :=
  let n := c.toNat
  if n < 0x80 then [n]
  else if n < 0x800 then [0xC0 + n / 0x40, 0x80 + n % 0x40]
  else if n < 0x10000 then [0xE0 + n / 0x1000, 0x80 + n / 0x40 % 0x40, 0x80 + n % 0x40]
  else [0xF0 + n / 0x40000, 0x80 + n / 0x1000 % 0x40, 0x80 + n / 0x40 % 0x40, 0x80 + n % 0x40]

/-- `hashString` from shortlink.go: the 64-bit FNV-1a hash
(`hash/fnv.New64a`) of the UTF-8 bytes of `s`; `uint64` arithmetic is
embedded with an explicit `% 2^64` per multiplication. -/
def hashString (s : String) : Nat :=
  (s.data.foldl (fun l c => l ++ charUTF8 c) []).foldl
    (fun h b => ((h ^^^ b) * 1099511628211) % 2 ^ 64) 14695981039346656037

/-! ## Service errors (internal/service/shortlink.go) -/

/-- The user-facing error conditions of the service layer:
`ErrInvalidURL`, `ErrShortLinkNotFound`, `ErrShortLinkExpired`,
`ErrMaxCapacityReached`, plus the two wrapped `fmt.Errorf` failures of
`Generate` ("invalid expire_at format" and "failed to save short link"). -/
inductive SvcError
  | invalidURL
  | notFound
  | expired
  | maxCapacityReached
  | invalidExpireAt
  | saveFailed
  deriving DecidableEq

/-! ## generateWithCollision (internal/service/shortlink.go, lines 193-218) -/

/-- The two existence backends consulted by `generateWithCollision`.
`bloomExists c` embeds `bloomSvc.Exists(ctx, c)` as a
`(value, errored?)` pair, and `dbExists c` embeds
`mysqlRepo.CheckExistsByCode(ctx, c)` the same way.  Both components are
modelled because the Go caller inspects the value and the error
independently (and, for the MySQL check, discards the error). -/
structure BloomDB where
  bloomExists : String → Bool × Bool
  dbExists : String → Bool × Bool

/-- The inner retry loop of `generateWithCollision`: attempt index `i`,
remaining retry budget `fuel` (1000 at entry).  Each attempt derives the
candidate `Encode(hash+uint64(i), length)`, consults the Bloom result
first and, when the Bloom call errored or answered "not exists", lets the
MySQL existence value decide (its error is discarded by the Go code via
`actualExists, _ := ...`); otherwise the candidate is skipped and the
offset incremented. -/
def attemptLoop (B : BloomDB) (hash length : Nat) : Nat → Nat → Option String
  | _, 0 => none
  | i, fuel + 1 =>
    let shortCode := Encode ((hash + i) % 2 ^ 64) length
    let bres := B.bloomExists shortCode
    if bres.2 || !bres.1 then
      if !(B.dbExists shortCode).1 then some shortCode
      else attemptLoop B hash length (i + 1) fuel
    else attemptLoop B hash length (i + 1) fuel

/-- The outer loop of `generateWithCollision` over candidate lengths
(`for length := encoder.MinLength; length <= encoder.MaxLength; length++`),
recomputing `hash := hashString(url)` per length as the source does. -/
def lengthLoop (B : BloomDB) (url : String) : List Nat → Option String
  | [] => none
  | len :: rest =>
    match attemptLoop B (hashString url) len 0 1000 with
    | some c => some c
    | none => lengthLoop B url rest

/-- `generateWithCollision` from shortlink.go: candidate lengths from
`MinLength` (4) to `MaxLength` (6), 1000 attempts per length, then
`ErrMaxCapacityReached`. -/
def generateWithCollision (B : BloomDB) (url : String) : Except SvcError String :=
  match lengthLoop B url (List.range' MinLength (MaxLength + 1 - MinLength)) with
  | some c => .ok c
  | none => .error .maxCapacityReached

/-- The condition under which one attempt of `generateWithCollision`
accepts its candidate: the Bloom lookup errored or answered "not exists",
and the value component of the MySQL existence check is `false`. -/
def acceptsCandidate (B : BloomDB) (code : String) : Bool :=
  ((B.bloomExists code).2 || !(B.bloomExists code).1) && !(B.dbExists code).1

/-- The candidate code derived for attempt `i` at a given length. -/
def candidate (url : String) (len i : Nat) : String :=
  Encode ((hashString url + i) % 2 ^ 64) len

theorem attemptLoop_succ (B : BloomDB) (hash len i fuel : Nat) :
    attemptLoop B hash len i (fuel + 1) =
      if acceptsCandidate B (Encode ((hash + i) % 2 ^ 64) len)
      then some (Encode ((hash + i) % 2 ^ 64) len)
      else attemptLoop B hash len (i + 1) fuel := by
  simp only [attemptLoop, acceptsCandidate, Bool.and_eq_true]
  rcases hb : B.bloomExists (Encode ((hash + i) % 2 ^ 64) len) with ⟨bv, be⟩
  rcases hd : B.dbExists (Encode ((hash + i) % 2 ^ 64) len) with ⟨dv, de⟩
  cases bv <;> cases be <;> cases dv <;> simp [hb, hd]

theorem attemptLoop_some_accepts (B : BloomDB) (hash len : Nat) :
    ∀ fuel i r, attemptLoop B hash len i fuel = some r →
      acceptsCandidate B r = true := by
  intro fuel
  induction fuel with
  | zero => intro i r h; simp [attemptLoop] at h
  | succ fuel ih =>
    intro i r h
    rw [attemptLoop_succ] at h
    by_cases hacc : acceptsCandidate B (Encode ((hash + i) % 2 ^ 64) len) = true
    · rw [if_pos hacc] at h
      injection h with h
      rw [← h]; exact hacc
    · rw [if_neg hacc] at h
      exact ih (i + 1) r h

theorem attemptLoop_eq_none_iff (B : BloomDB) (hash len : Nat) :
    ∀ fuel i, attemptLoop B hash len i fuel = none ↔
      ∀ d, d < fuel → acceptsCandidate B (Encode ((hash + (i + d)) % 2 ^ 64) len) = false := by
  intro fuel
  induction fuel with
  | zero => intro i; simp [attemptLoop]
  | succ fuel ih =>
    intro i
    rw [attemptLoop_succ]
    by_cases hacc : acceptsCandidate B (Encode ((hash + i) % 2 ^ 64) len) = true
    · rw [if_pos hacc]
      constructor
      · intro h; cases h
      · intro h
        have := h 0 (Nat.succ_pos _)
        simp only [Nat.add_zero] at this
        rw [this] at hacc; cases hacc
    · rw [if_neg hacc, ih]
      rw [Bool.not_eq_true] at hacc
      constructor
      · intro h d hd
        cases d with
        | zero => exact hacc
        | succ d =>
          have hrec := h d (by omega)
          have heq : i + 1 + d = i + (d + 1) := by omega
          rw [heq] at hrec
          exact hrec
      · intro h d hd
        have hrec := h (d + 1) (by omega)
        have heq : i + (d + 1) = i + 1 + d := by omega
        rw [heq] at hrec
        exact hrec

theorem lengthLoop_some_accepts (B : BloomDB) (url : String) :
    ∀ lens r, lengthLoop B url lens = some r → acceptsCandidate B r = true := by
  intro lens
  induction lens with
  | nil => intro r h; simp [lengthLoop] at h
  | cons len rest ih =>
    intro r h
    simp only [lengthLoop] at h
    cases hl : attemptLoop B (hashString url) len 0 1000 with
    | some c =>
      rw [hl] at h
      cases h
      exact attemptLoop_some_accepts B (hashString url) len 1000 0 r hl
    | none => rw [hl] at h; exact ih r h

theorem generateWithCollision_ok_accepts (B : BloomDB) (url : String) (r : String)
    (h : generateWithCollision B url = .ok r) : acceptsCandidate B r = true := by
  unfold generateWithCollision at h
  cases hl : lengthLoop B url (List.range' MinLength (MaxLength + 1 - MinLength)) with
  | some c =>
    rw [hl] at h
    cases h
    exact lengthLoop_some_accepts B url _ r hl
  | none => rw [hl] at h; cases h

theorem generateWithCollision_error_iff (B : BloomDB) (url : String) :
    generateWithCollision B url = .error .maxCapacityReached ↔
      ∀ len, MinLength ≤ len → len ≤ MaxLength →
        ∀ i, i < 1000 →
          acceptsCandidate B (Encode ((hashString url + i) % 2 ^ 64) len) = false := by
  unfold generateWithCollision
  have hr : List.range' MinLength (MaxLength + 1 - MinLength) = [4, 5, 6] := by decide
  rw [hr]
  simp only [lengthLoop]
  have h4 := attemptLoop_eq_none_iff B (hashString url) 4 1000 0
  have h5 := attemptLoop_eq_none_iff B (hashString url) 5 1000 0
  have h6 := attemptLoop_eq_none_iff B (hashString url) 6 1000 0
  simp only [Nat.zero_add] at h4 h5 h6
  constructor
  · intro h len hmin hmax i hi
    cases ha4 : attemptLoop B (hashString url) 4 0 1000 with
    | some c => rw [ha4] at h; cases h
    | none =>
    rw [ha4] at h
    cases ha5 : attemptLoop B (hashString url) 5 0 1000 with
    | some c => rw [ha5] at h; cases h
    | none =>
    rw [ha5] at h
    cases ha6 : attemptLoop B (hashString url) 6 0 1000 with
    | some c => rw [ha6] at h; cases h
    | none =>
    have hMin : MinLength = 4 := rfl
    have hMax : MaxLength = 6 := rfl
    rw [hMin] at hmin; rw [hMax] at hmax
    interval_cases len
    · exact (h4.mp ha4) i hi
    · exact (h5.mp ha5) i hi
    · exact (h6.mp ha6) i hi
  · intro h
    have ha4 : attemptLoop B (hashString url) 4 0 1000 = none :=
      h4.mpr (fun d hd => h 4 (by decide) (by decide) d hd)
    have ha5 : attemptLoop B (hashString url) 5 0 1000 = none :=
      h5.mpr (fun d hd => h 5 (by decide) (by decide) d hd)
    have ha6 : attemptLoop B (hashString url) 6 0 1000 = none :=
      h6.mpr (fun d hd => h 6 (by decide) (by decide) d hd)
    rw [ha4, ha5, ha6]

/-- C1 (amended): in `generateWithCollision`, the Approximate Membership
Index is consulted first for every candidate; when the Index call errors
or reports "definitely absent", the engine falls through to the
authoritative Durable-Store existence check and accepts the candidate
exactly when the check's value reports it unused; a candidate the Index
reports as "possibly exists" (without error) is skipped outright, without
the durable-store check ever being consulted for it.  First conjunct: an
err-or-absent Index answer plus an unused Durable-Store answer on the very
first candidate makes the loop accept it.  Second conjunct: every code the
loop returns passed both gates — the Index gate answered err-or-absent and
the Durable-Store value reported unused (so an Index "possibly exists"
answer without error is never accepted). -/
theorem bloom_gating (B : BloomDB) (url : String) :
    (((B.bloomExists (candidate url MinLength 0)).2 = true ∨
        (B.bloomExists (candidate url MinLength 0)).1 = false) →
      (B.dbExists (candidate url MinLength 0)).1 = false →
      generateWithCollision B url = .ok (candidate url MinLength 0)) ∧
    (∀ r, generateWithCollision B url = .ok r →
      ((B.bloomExists r).2 = true ∨ (B.bloomExists r).1 = false) ∧
        (B.dbExists r).1 = false) := by
  constructor
  · intro hb hd
    have hacc : acceptsCandidate B (candidate url MinLength 0) = true := by
      unfold acceptsCandidate
      rcases hb with hb | hb <;> simp [hb, hd]
    unfold generateWithCollision
    have hr : List.range' MinLength (MaxLength + 1 - MinLength) = [4, 5, 6] := by decide
    rw [hr]
    simp only [lengthLoop]
    have hstep := attemptLoop_succ B (hashString url) 4 0 999
    have hc : Encode ((hashString url + 0) % 2 ^ 64) 4 = candidate url MinLength 0 := rfl
    rw [hc] at hstep
    rw [show (999 : Nat) + 1 = 1000 from rfl] at hstep
    rw [hstep, if_pos hacc]
  · intro r h
    have := generateWithCollision_ok_accepts B url r h
    unfold acceptsCandidate at this
    rcases hbe : B.bloomExists r with ⟨bv, be⟩
    rcases hde : B.dbExists r with ⟨dv, de⟩
    rw [hbe, hde] at this
    simp only [Bool.and_eq_true, Bool.or_eq_true, Bool.not_eq_eq_eq_not, Bool.not_true] at this
    cases bv <;> cases be <;> cases dv <;> simp_all

/-- A backend on which every Bloom lookup and every MySQL existence check
succeeds and reports "not present". -/
def allFreeBackend : BloomDB :=
  { bloomExists := fun _ => (false, false), dbExists := fun _ => (false, false) }

/-- Witness for C1 (amended): on `allFreeBackend`, the very first candidate
for `"a"` is accepted. -/
theorem bloom_gating_witness :
    generateWithCollision allFreeBackend "a" = .ok (candidate "a" MinLength 0) :=
  (bloom_gating allFreeBackend "a").1 (Or.inr rfl) rfl

/-- A backend whose Index falsely reports the first candidate for `"a"` as
"possibly exists" (without error) while the Durable Store reports every
code unused. -/
def bloomFalsePositiveBackend : BloomDB :=
  { bloomExists := fun c => (c == candidate "a" MinLength 0, false),
    dbExists := fun _ => (false, false) }

/-- A backend whose Index always answers "definitely absent" while the
Durable Store reports the first candidate for `"a"` as used. -/
def bloomAbsentDbUsedBackend : BloomDB :=
  { bloomExists := fun _ => (false, false),
    dbExists := fun c => (c == candidate "a" MinLength 0, false) }

/-- Counterexample to C1 as stated.  (1) On `bloomFalsePositiveBackend` the
Index reports candidate 0 as "possibly exists" with no error and the
Durable Store reports it unused, so per the claim the engine should fall
through to the durable-store check and accept candidate 0; instead the
loop skips it and returns candidate 1.  (2) On `bloomAbsentDbUsedBackend`
the Index reports candidate 0 as definitely absent, so per the claim it is
"safe to accept without the durable-store check"; instead the engine
consults the Durable Store, finds the code used, and returns candidate 1. -/
theorem bloom_gating_cex :
    (bloomFalsePositiveBackend.bloomExists (candidate "a" MinLength 0) = (true, false) ∧
      (bloomFalsePositiveBackend.dbExists (candidate "a" MinLength 0)).1 = false ∧
      generateWithCollision bloomFalsePositiveBackend "a" = .ok (candidate "a" MinLength 1) ∧
      candidate "a" MinLength 1 ≠ candidate "a" MinLength 0) ∧
    (bloomAbsentDbUsedBackend.bloomExists (candidate "a" MinLength 0) = (false, false) ∧
      (bloomAbsentDbUsedBackend.dbExists (candidate "a" MinLength 0)).1 = true ∧
      generateWithCollision bloomAbsentDbUsedBackend "a" = .ok (candidate "a" MinLength 1) ∧
      candidate "a" MinLength 1 ≠ candidate "a" MinLength 0) :=
  ⟨⟨by decide, rfl, rfl, by decide⟩, ⟨rfl, by decide, rfl, by decide⟩⟩

/-- C2 (amended): the error returned by the Durable-Store existence check
inside the collision loop is discarded (`actualExists, _ := ...`): a
candidate is accepted whenever the check's boolean value is `false`, even
when the check itself errored, and `generateWithCollision` never
propagates any error other than `ErrMaxCapacityReached`.  First conjunct:
the only error the collision loop can return is capacity exhaustion (so a
durable-store check failure is never surfaced).  Second conjunct: any
accepted code had durable-store value `false` — the value alone decides,
regardless of the error component. -/
theorem db_check_error_discarded (B : BloomDB) (url : String) :
    (∀ e, generateWithCollision B url = .error e → e = .maxCapacityReached) ∧
    (∀ r, generateWithCollision B url = .ok r → (B.dbExists r).1 = false) := by
  constructor
  · intro e h
    unfold generateWithCollision at h
    cases hl : lengthLoop B url (List.range' MinLength (MaxLength + 1 - MinLength)) with
    | some c => rw [hl] at h; cases h
    | none => rw [hl] at h; cases h; rfl
  · intro r h
    have := generateWithCollision_ok_accepts B url r h
    unfold acceptsCandidate at this
    simp only [Bool.and_eq_true, Bool.not_eq_eq_eq_not, Bool.not_true] at this
    exact this.2

/-- A backend on which every MySQL existence check errors (returning the
Go zero value `false` alongside the error) and every Bloom lookup
succeeds with "not exists". -/
def dbAlwaysErrorBackend : BloomDB :=
  { bloomExists := fun _ => (false, false), dbExists := fun _ => (false, true) }

/-- Witness for C2 (amended) on `dbAlwaysErrorBackend`: the accepted code's
durable-store value component is `false`. -/
theorem db_check_error_discarded_witness :
    (dbAlwaysErrorBackend.dbExists (candidate "a" MinLength 0)).1 = false :=
  (db_check_error_discarded dbAlwaysErrorBackend "a").2 (candidate "a" MinLength 0) rfl

/-- Counterexample to C2 as stated: on `dbAlwaysErrorBackend` the
durable-store existence check for the first candidate errors, yet
`generateWithCollision` accepts that candidate and returns no error at
all — the claim required the error to propagate as a persistence failure
and the candidate not to be accepted. -/
theorem db_check_error_discarded_cex :
    (dbAlwaysErrorBackend.dbExists (candidate "a" MinLength 0)).2 = true ∧
    generateWithCollision dbAlwaysErrorBackend "a" = .ok (candidate "a" MinLength 0) :=
  ⟨rfl, rfl⟩

/-- C6 (amended): `generateWithCollision` returns the capacity-exhausted
condition exactly when, for every candidate length from 4 up to 6 and
every attempt index below the fixed budget of 1000, the derived candidate
is rejected by the loop's check — that is, the Index reported it as
possibly existing without error, or the Durable-Store check's value
reported it used.  (As stated the claim is false: an Index false positive
rejects a candidate that is not actually used, see the counterexample.)
The failure is terminal: it is returned once, with no further retry. -/
theorem capacity_exhausted_iff (B : BloomDB) (url : String) :
    generateWithCollision B url = .error .maxCapacityReached ↔
      ∀ len, MinLength ≤ len → len ≤ MaxLength →
        ∀ i, i < 1000 → acceptsCandidate B (candidate url len i) = false :=
  generateWithCollision_error_iff B url

/-- A backend whose Index reports every code as "possibly exists" (no
error) while the Durable Store reports every code unused. -/
def bloomAllPositiveBackend : BloomDB :=
  { bloomExists := fun _ => (true, false), dbExists := fun _ => (false, false) }

/-- Witness for C6 (amended): on `bloomAllPositiveBackend` every candidate
is rejected, so the loop reports capacity exhausted. -/
theorem capacity_exhausted_iff_witness :
    generateWithCollision bloomAllPositiveBackend "a" = .error .maxCapacityReached :=
  (capacity_exhausted_iff bloomAllPositiveBackend "a").mpr
    (fun _len _ _ _i _ => by simp [acceptsCandidate, bloomAllPositiveBackend])

/-- Counterexample to C6 as stated: on `bloomAllPositiveBackend` no code is
ever "found to be already used" — the Durable Store reports every code
unused — yet generation fails with capacity exhausted, because Index false
positives alone rejected every candidate. -/
theorem capacity_exhausted_cex :
    (∀ s, (bloomAllPositiveBackend.dbExists s).1 = false) ∧
    generateWithCollision bloomAllPositiveBackend "a" = .error .maxCapacityReached := by
  refine ⟨fun _ => rfl, ?_⟩
  have h : ∀ len, MinLength ≤ len → len ≤ MaxLength →
      ∀ i, i < 1000 →
        acceptsCandidate bloomAllPositiveBackend
          (Encode ((hashString "a" + i) % 2 ^ 64) len) = false :=
    fun _len _ _ _i _ => by simp [acceptsCandidate, bloomAllPositiveBackend]
  exact (generateWithCollision_error_iff bloomAllPositiveBackend "a").mpr h

/-! ## Data model (internal/model, migration schema) -/

/-- `model.ShortLink`: the canonical mapping row.  Timestamps are embedded
as `Int` (an abstract instant; `time.After` is `<` on instants);
`Params` (`json.RawMessage`) is an opaque optional serialized blob;
`Status` is the Go `int` column (1 = active, 0 = disabled). -/
structure ShortLink where
  shortCode : String
  originalURL : String
  params : Option String
  createdAt : Int
  expireAt : Option Int
  status : Nat
  deriving DecidableEq

/-- `ShortLink.IsActive` from the model: active status and, when an expiry
is present, `time.Now().After(*ExpireAt)` must be false.  `now` is the
current instant. -/
def ShortLink.IsActive (sl : ShortLink) (now : Int) : Bool :=
  if sl.status ≠ 1 then false
  else
    match sl.expireAt with
    | some t => if t < now then false else true
    | none => true

/-! ## Repository queries (internal/repository/mysql.go) -/

/-- `MySQLRepository.GetShortLinkByCode`: `WHERE short_code = ? AND
status = 1`, first matching row; a miss is `gorm.ErrRecordNotFound`. -/
def GetShortLinkByCode (db : List ShortLink) (shortCode : String) : Except Unit ShortLink :=
  match db.find? (fun sl => sl.shortCode == shortCode && sl.status == 1) with
  | some sl => .ok sl
  | none => .error ()

/-- `MySQLRepository.GetShortLinkByURL`: `WHERE original_url = ? AND
status = 1`, first matching row. -/
def GetShortLinkByURL (db : List ShortLink) (url : String) : Except Unit ShortLink :=
  match db.find? (fun sl => sl.originalURL == url && sl.status == 1) with
  | some sl => .ok sl
  | none => .error ()

/-- The value component of `MySQLRepository.CheckExistsByCode`:
`COUNT(*) WHERE short_code = ?` compared with zero — no status filter. -/
def CheckExistsByCodeVal (db : List ShortLink) (shortCode : String) : Bool :=
  db.any (fun sl => sl.shortCode == shortCode)

/-! ## Backend state for the service layer

`World` is the combined state of the three backends as `ShortLinkService`
sees them on its success paths: the MySQL table, the Redis keyspace
(`GetShortLink`/`SaveShortLink` — a `none` lookup is `redis.Nil`), and the
set of codes added to the Bloom filter.  Failure injection for the
collision loop goes through the `BloomDB` oracle instead. -/
structure World where
  mysql : List ShortLink
  redis : String → Option String
  bloom : String → Bool

/-- `RedisRepository.SaveShortLink`: `SET key value` (with TTL, which the
embedding does not track). -/
def redisSet (r : String → Option String) (key value : String) : String → Option String :=
  fun k => if k = key then some value else r k

/-- The `BloomDB` oracle induced by a `World` in which the Bloom and MySQL
existence calls themselves succeed. -/
def World.backends (W : World) : BloomDB :=
  { bloomExists := fun c => (W.bloom c, false),
    dbExists := fun c => (CheckExistsByCodeVal W.mysql c, false) }

/-! ## Get (internal/service/shortlink.go, lines 139-165) -/

/-- The MySQL fallback path of `ShortLinkService.Get`: any lookup error
becomes `ErrShortLinkNotFound`; an inactive row becomes
`ErrShortLinkExpired`; on success the `code → url` cache mapping is
repopulated. -/
def getViaMySQL (W : World) (now : Int) (shortCode : String) :
    Except SvcError ShortLink × World :=
  match GetShortLinkByCode W.mysql shortCode with
  | .error _ => (.error .notFound, W)
  | .ok sl =>
    if !sl.IsActive now then (.error .expired, W)
    else (.ok sl, { W with redis := redisSet W.redis shortCode sl.originalURL })

/-- `ShortLinkService.Get`: cache first (`err == nil && url != ""` — a hit
returns a minimal reconstructed entry with zero-valued remaining fields),
then the MySQL fallback. -/
def Get (W : World) (now : Int) (shortCode : String) : Except SvcError ShortLink × World :=
  match W.redis shortCode with
  | some url =>
    if url ≠ "" then
      (.ok { shortCode := shortCode, originalURL := url, params := none,
             createdAt := 0, expireAt := none, status := 0 }, W)
    else getViaMySQL W now shortCode
  | none => getViaMySQL W now shortCode

/-- C3 (amended): for a code with no cache entry, `Get` returns not-found
both when the Durable Store has no row for the code and when every row for
the code is disabled (`status ≠ 1`) — the by-code query filters on
`status = 1`, so a disabled entry is indistinguishable from an absent one;
the expired/inactive condition is returned exactly for a row that passes
the active-status query filter but whose `expire_at` lies in the past. -/
theorem resolve_code_conditions (W : World) (now : Int) (code : String)
    (hmiss : W.redis code = none) :
    ((∀ sl ∈ W.mysql, sl.shortCode = code → sl.status ≠ 1) →
      (Get W now code).1 = .error .notFound) ∧
    (∀ sl, GetShortLinkByCode W.mysql code = .ok sl →
      ∀ t, sl.expireAt = some t → t < now →
        (Get W now code).1 = .error .expired) := by
  constructor
  · intro hnone
    have hfind : W.mysql.find? (fun sl => sl.shortCode == code && sl.status == 1) = none := by
      rw [List.find?_eq_none]
      intro sl hmem
      simp only [Bool.and_eq_true, beq_iff_eq]
      intro ⟨hc, hs⟩
      exact hnone sl hmem hc hs
    unfold Get
    rw [hmiss]
    unfold getViaMySQL GetShortLinkByCode
    rw [hfind]
  · intro sl hok t hexp hpast
    have hstatus : sl.status = 1 := by
      unfold GetShortLinkByCode at hok
      cases hfind : W.mysql.find? (fun sl => sl.shortCode == code && sl.status == 1) with
      | some sl' =>
        rw [hfind] at hok
        injection hok with hok
        subst hok
        have := List.find?_some hfind
        simp only [Bool.and_eq_true, beq_iff_eq] at this
        exact this.2
      | none => rw [hfind] at hok; cases hok
    have hinactive : sl.IsActive now = false := by
      unfold ShortLink.IsActive
      rw [hexp]
      simp [hstatus, hpast]
    unfold Get
    rw [hmiss]
    show (getViaMySQL W now code).1 = Except.error SvcError.expired
    unfold getViaMySQL
    rw [hok]
    simp [hinactive]

/-! ## Generate (internal/service/shortlink.go, lines 62-136) -/

/-- `model.GenerateRequest`: the URL, the optional `map[string]interface{}`
parameter template (embedded as an association list whose values are
already string-rendered; a Go `nil` map and an empty map both have length
zero), and the optional textual expiry. -/
structure GenerateRequest where
  url : String
  params : List (String × String)
  expireAt : String

/-- `model.GenerateResponse`: the rendered public response. -/
structure GenerateResponse where
  shortLink : String
  shortCode : String
  originalURL : String
  expireAt : Option Int
  deriving DecidableEq

/-- Lexicographic order on character lists by code point — the order
Go's byte-wise string comparison induces (UTF-8 preserves code-point
order). -/
def listLe : List Char → List Char → Bool
  | [], _ => true
  | _ :: _, [] => false
  | c :: cs, d :: ds =>
    if c.toNat < d.toNat then true
    else if d.toNat < c.toNat then false
    else listLe cs ds

/-- Go's string `<=`. -/
def keyLe (a b : String) : Bool := listLe a.data b.data

/-- Insertion step for sorting string-keyed pairs by key (Go prints map
keys, and `url.Values.Encode` emits them, in sorted order). -/
def insertByKey {α : Type} (p : String × α) : List (String × α) → List (String × α)
  | [] => [p]
  | q :: rest => if keyLe p.1 q.1 then p :: q :: rest else q :: insertByKey p rest

/-- Key-sorted pair list. -/
def sortByKey {α : Type} (l : List (String × α)) : List (String × α) :=
  l.foldr insertByKey []

/-- The `%v` rendering of the parameter map inside
`fmt.Sprintf("%s:%v", url, params)`: Go prints `map[k1:v1 k2:v2]` with
keys in sorted order. -/
def renderParams (params : List (String × String)) : String :=
  "map[" ++ String.intercalate " " ((sortByKey params).map (fun p => p.1 ++ ":" ++ p.2)) ++ "]"

/-- `buildCacheKey` from shortlink.go: the raw URL when the parameter map
is empty, otherwise `url ++ ":" ++ <rendered map>`. -/
def buildCacheKey (url : String) (params : List (String × String)) : String :=
  if params.length = 0 then url else url ++ ":" ++ renderParams params

/-- The `paramsJSON` computation of `Generate`: `json.Marshal(req.Params)`
when the map is non-nil, embedded as an opaque rendering (the field is
stored but never read back by any code under verification). -/
def marshalParams (params : List (String × String)) : Option String :=
  if params.isEmpty then none else some (renderParams params)

/-- `buildResponse` from shortlink.go: full short link =
`domain ++ "/" ++ code`. -/
def buildResponse (domain : String) (sl : ShortLink) : GenerateResponse :=
  { shortLink := domain ++ "/" ++ sl.shortCode
    shortCode := sl.shortCode
    originalURL := sl.originalURL
    expireAt := sl.expireAt }

/-- The expiry-parsing prologue of `Generate`:
`time.Parse(time.RFC3339, req.ExpireAt)` behind `req.ExpireAt != ""`,
with the parser itself supplied as an oracle `parseRFC3339` (it is a Go
standard-library boundary); a parse failure is the wrapped
"invalid expire_at format" caller error. -/
def parseExpire (parseRFC3339 : String → Option Int) (s : String) :
    Except SvcError (Option Int) :=
  if s = "" then .ok none
  else
    match parseRFC3339 s with
    | some t => .ok (some t)
    | none => .error .invalidExpireAt

/-- The cache fast path of `Generate`: a non-empty cached code that the
active-row MySQL lookup confirms short-circuits to the existing entry;
any failure falls through. -/
def cacheFastPath (domain : String) (W : World) (cacheKey : String) :
    Option GenerateResponse :=
  match W.redis cacheKey with
  | some cachedCode =>
    if cachedCode ≠ "" then
      match GetShortLinkByCode W.mysql cachedCode with
      | .ok sl => some (buildResponse domain sl)
      | .error _ => none
    else none
  | none => none

/-- Steps 7-8 of `Generate` on the failure-free world: append the new row
to MySQL (`SaveShortLink`), write the `cacheKey → code` and `code → url`
cache mappings in that order, and add the code to the Bloom filter. -/
def persistNew (domain : String) (W : World) (cacheKey url : String)
    (paramsJSON : Option String) (now : Int) (expireAt : Option Int)
    (shortCode : String) : Except SvcError GenerateResponse × World :=
  (.ok (buildResponse domain
      { shortCode := shortCode, originalURL := url, params := paramsJSON,
        createdAt := now, expireAt := expireAt, status := 1 }),
    { mysql := W.mysql ++
        [{ shortCode := shortCode, originalURL := url, params := paramsJSON,
           createdAt := now, expireAt := expireAt, status := 1 }]
      redis := redisSet (redisSet W.redis cacheKey shortCode) shortCode url
      bloom := fun c => c == shortCode || W.bloom c })

/-- `ShortLinkService.Generate` on the failure-free backend world `W`
(backend write failures are modelled separately through the `BloomDB`
oracle of `generateWithCollision`; a MySQL save failure would be the
`saveFailed` persistence error, which cannot occur in `World`):
empty-URL rejection, expiry parsing, cache fast path, durable de-dup by
raw URL (which re-populates the cache mapping), collision-loop
generation, then persist + cache-populate + Bloom registration. -/
def Generate (domain : String) (parseRFC3339 : String → Option Int) (now : Int)
    (W : World) (req : GenerateRequest) : Except SvcError GenerateResponse × World :=
  if req.url = "" then (.error .invalidURL, W)
  else
    match parseExpire parseRFC3339 req.expireAt with
    | .error e => (.error e, W)
    | .ok expireAt =>
      match cacheFastPath domain W (buildCacheKey req.url req.params) with
      | some resp => (.ok resp, W)
      | none =>
        match GetShortLinkByURL W.mysql req.url with
        | .ok existing =>
          (.ok (buildResponse domain existing),
            { W with redis :=
                (redisSet W.redis (buildCacheKey req.url req.params) existing.shortCode) })
        | .error _ =>
          match generateWithCollision W.backends req.url with
          | .error e => (.error e, W)
          | .ok shortCode =>
            persistNew domain W (buildCacheKey req.url req.params) req.url
              (marshalParams req.params) now expireAt shortCode

/-! Support lemmas for the idempotence proof. -/

theorem redisSet_self (r : String → Option String) (k v : String) :
    redisSet r k v k = some v := by simp [redisSet]

theorem redisSet_ne (r : String → Option String) (k v k' : String) (h : k' ≠ k) :
    redisSet r k v k' = r k' := by simp [redisSet, h]

theorem getD_mem_alphabet (m : Nat) : Base32Alphabet.getD m 'A' ∈ Base32Alphabet := by
  rw [List.getD_eq_get?]
  cases hg : Base32Alphabet.get? m with
  | some c => exact List.get?_mem hg
  | none => decide

theorem encodeAux_mem (n k : Nat) : ∀ ch ∈ encodeAux n k, ch ∈ Base32Alphabet := by
  induction k generalizing n with
  | zero => intro ch h; cases h
  | succ k ih =>
    intro ch h
    simp only [encodeAux, List.mem_append, List.mem_singleton] at h
    rcases h with h | h
    · exact ih (n / 32) ch h
    · rw [h]; exact getD_mem_alphabet _

theorem Encode_ne_empty (n len : Nat) : Encode n len ≠ "" := by
  intro h
  have hd : encodeAux n (if len < MinLength ∨ MaxLength < len then MinLength else len) = [] :=
    congrArg String.data h
  have hlen := encodeAux_length n (if len < MinLength ∨ MaxLength < len then MinLength else len)
  rw [hd] at hlen
  simp only [List.length_nil] at hlen
  unfold MinLength MaxLength at hlen
  split at hlen <;> omega

theorem Encode_mem (n len : Nat) : ∀ ch ∈ (Encode n len).data, ch ∈ Base32Alphabet :=
  fun ch h => encodeAux_mem n _ ch h

theorem attemptLoop_some_shape (B : BloomDB) (hash len : Nat) :
    ∀ fuel i r, attemptLoop B hash len i fuel = some r →
      ∃ j, r = Encode ((hash + j) % 2 ^ 64) len := by
  intro fuel
  induction fuel with
  | zero => intro i r h; simp [attemptLoop] at h
  | succ fuel ih =>
    intro i r h
    rw [attemptLoop_succ] at h
    by_cases hacc : acceptsCandidate B (Encode ((hash + i) % 2 ^ 64) len) = true
    · rw [if_pos hacc] at h; injection h with h; exact ⟨i, h.symm⟩
    · rw [if_neg hacc] at h; exact ih (i + 1) r h

theorem lengthLoop_some_shape (B : BloomDB) (url : String) :
    ∀ lens r, lengthLoop B url lens = some r →
      ∃ len j, r = Encode ((hashString url + j) % 2 ^ 64) len := by
  intro lens
  induction lens with
  | nil => intro r h; simp [lengthLoop] at h
  | cons len rest ih =>
    intro r h
    simp only [lengthLoop] at h
    cases hl : attemptLoop B (hashString url) len 0 1000 with
    | some c =>
      rw [hl] at h
      cases h
      obtain ⟨j, hj⟩ := attemptLoop_some_shape B (hashString url) len 1000 0 r hl
      exact ⟨len, j, hj⟩
    | none => rw [hl] at h; exact ih r h

theorem generateWithCollision_ok_shape (B : BloomDB) (url r : String)
    (h : generateWithCollision B url = .ok r) :
    ∃ len j, r = Encode ((hashString url + j) % 2 ^ 64) len := by
  unfold generateWithCollision at h
  cases hl : lengthLoop B url (List.range' MinLength (MaxLength + 1 - MinLength)) with
  | some c =>
    rw [hl] at h
    cases h
    exact lengthLoop_some_shape B url _ r hl
  | none => rw [hl] at h; cases h

theorem find?_active_code (db : List ShortLink) (code : String) (sl : ShortLink)
    (hmem : sl ∈ db) (hc : sl.shortCode = code) (hs : sl.status = 1) :
    ∃ sl', GetShortLinkByCode db code = .ok sl' ∧ sl'.shortCode = code := by
  have hp : (fun x : ShortLink => x.shortCode == code && x.status == 1) sl = true := by
    simp [hc, hs]
  have hsome : (db.find? (fun x : ShortLink => x.shortCode == code && x.status == 1)).isSome := by
    rw [List.find?_isSome]
    exact ⟨sl, hmem, hp⟩
  obtain ⟨sl', hfind⟩ := Option.isSome_iff_exists.mp hsome
  have hps := List.find?_some hfind
  simp only [Bool.and_eq_true, beq_iff_eq] at hps
  refine ⟨sl', ?_, hps.1⟩
  unfold GetShortLinkByCode
  rw [hfind]

theorem byURL_inv (db : List ShortLink) (url : String) (existing : ShortLink)
    (h : GetShortLinkByURL db url = .ok existing) :
    existing ∈ db ∧ existing.originalURL = url ∧ existing.status = 1 := by
  unfold GetShortLinkByURL at h
  cases hfind : db.find? (fun sl => sl.originalURL == url && sl.status == 1) with
  | some sl' =>
    rw [hfind] at h
    injection h with h
    subst h
    have hm := List.mem_of_find?_eq_some hfind
    have hp := List.find?_some hfind
    simp only [Bool.and_eq_true, beq_iff_eq] at hp
    exact ⟨hm, hp.1, hp.2⟩
  | none => rw [hfind] at h; cases h

theorem cacheKey_ne_code (url : String) (params : List (String × String))
    (hne : params.length ≠ 0) (n len : Nat) :
    buildCacheKey url params ≠ Encode n len := by
  intro h
  have hkey : buildCacheKey url params = url ++ ":" ++ renderParams params := by
    unfold buildCacheKey; rw [if_neg hne]
  have hc : ':' ∈ (url ++ ":" ++ renderParams params).data := by
    have hdata : (url ++ ":" ++ renderParams params).data
        = url.data ++ [':'] ++ (renderParams params).data := rfl
    rw [hdata]
    simp
  rw [← hkey, h] at hc
  have := Encode_mem n len ':' hc
  revert this
  decide

/-- C4: Generate is idempotent for identical requests.  If a `Generate`
call on the failure-free backend world `W` succeeds (identical non-empty
URL, identical — possibly empty — parameter template, deterministic expiry
parsing), then running `Generate` again with the same request on the
resulting world succeeds and returns the same short code: the second call
is answered by the cache fast path or by the durable-store de-dup check
rather than by generating a new code. -/
theorem generate_idempotent (domain : String) (pt : String → Option Int)
    (now₁ now₂ : Int) (W : World) (req : GenerateRequest) (hurl : req.url ≠ "")
    (r1 : GenerateResponse) (W1 : World)
    (h1 : Generate domain pt now₁ W req = (.ok r1, W1)) :
    ∃ r2 W2, Generate domain pt now₂ W1 req = (.ok r2, W2) ∧ r2.shortCode = r1.shortCode := by
  unfold Generate at h1
  rw [if_neg hurl] at h1
  cases hexp : parseExpire pt req.expireAt with
  | error e => rw [hexp] at h1; simp at h1
  | ok expireAt =>
    rw [hexp] at h1
    cases hfast : cacheFastPath domain W (buildCacheKey req.url req.params) with
    | some resp =>
      -- Fast path: no state change, the second call takes the same path.
      rw [hfast] at h1
      rw [Prod.mk.injEq] at h1
      obtain ⟨hr, hw⟩ := h1
      injection hr with hr
      subst hw
      refine ⟨resp, W, ?_, by rw [← hr]⟩
      unfold Generate
      rw [if_neg hurl, hexp, hfast]
    | none =>
      rw [hfast] at h1
      cases hbyurl : GetShortLinkByURL W.mysql req.url with
      | ok existing =>
        -- De-dup path: the cache mapping cacheKey ↦ existing.shortCode is
        -- written; the second call hits it (or, if the stored code is the
        -- empty string, repeats the de-dup query).
        rw [hbyurl] at h1
        rw [Prod.mk.injEq] at h1
        obtain ⟨hr, hw⟩ := h1
        injection hr with hr
        subst hw
        obtain ⟨hmem, hurl', hstat⟩ := byURL_inv W.mysql req.url existing hbyurl
        by_cases hsc : existing.shortCode = ""
        · -- Cached value is empty: fast path misses, de-dup hits again.
          have hfast2 : cacheFastPath domain
              { W with redis :=
                  (redisSet W.redis (buildCacheKey req.url req.params) existing.shortCode) }
              (buildCacheKey req.url req.params) = none := by
            simp [cacheFastPath, redisSet_self, hsc]
          refine ⟨buildResponse domain existing,
            { mysql := W.mysql,
              redis := redisSet
                (redisSet W.redis (buildCacheKey req.url req.params) existing.shortCode)
                (buildCacheKey req.url req.params) existing.shortCode,
              bloom := W.bloom }, ?_, by rw [← hr]⟩
          unfold Generate
          rw [if_neg hurl, hexp, hfast2]
          have hbyurl2 : GetShortLinkByURL W.mysql req.url = .ok existing := hbyurl
          rw [hbyurl2]
        · -- Cached value is the existing code: the fast path hits and the
          -- active-row lookup succeeds on a row carrying the same code.
          obtain ⟨sl', hok', hsc'⟩ :=
            find?_active_code W.mysql existing.shortCode existing hmem rfl hstat
          have hfast2 : cacheFastPath domain
              { W with redis :=
                  (redisSet W.redis (buildCacheKey req.url req.params) existing.shortCode) }
              (buildCacheKey req.url req.params) = some (buildResponse domain sl') := by
            have hred : redisSet W.redis (buildCacheKey req.url req.params) existing.shortCode
                (buildCacheKey req.url req.params) = some existing.shortCode :=
              redisSet_self _ _ _
            simp [cacheFastPath, hred, hsc, hok']
          refine ⟨buildResponse domain sl',
            { mysql := W.mysql,
              redis := redisSet W.redis (buildCacheKey req.url req.params) existing.shortCode,
              bloom := W.bloom }, ?_, ?_⟩
          · unfold Generate
            rw [if_neg hurl, hexp, hfast2]
          · rw [← hr]
            simp [buildResponse, hsc']
      | error eu =>
        rw [hbyurl] at h1
        cases hgen : generateWithCollision W.backends req.url with
        | error e => rw [hgen] at h1; simp [persistNew] at h1
        | ok code =>
          -- Fresh-generation path: the new row and cache mappings are
          -- written; the second call hits the cache mapping and resolves
          -- the new code against the extended table.
          rw [hgen] at h1
          unfold persistNew at h1
          rw [Prod.mk.injEq] at h1
          obtain ⟨hr, hw⟩ := h1
          injection hr with hr
          obtain ⟨len, j, hshape⟩ := generateWithCollision_ok_shape _ _ _ hgen
          have hcne : code ≠ "" := by rw [hshape]; exact Encode_ne_empty _ _
          have hcache : W1.redis (buildCacheKey req.url req.params) = some code := by
            rw [← hw]
            by_cases hkc : buildCacheKey req.url req.params = code
            · -- The composite key coincides with the code: then the params
              -- are empty (a key with params contains ':', a code cannot)
              -- and the key IS the raw URL, so the second write covers it.
              have hpempty : req.params.length = 0 := by
                by_contra hne
                exact cacheKey_ne_code req.url req.params hne _ _ (by rw [hkc, hshape])
              have hurlc : req.url = code := by
                have hku : buildCacheKey req.url req.params = req.url := by
                  unfold buildCacheKey; rw [if_pos hpempty]
                rw [← hku, hkc]
              show redisSet (redisSet W.redis (buildCacheKey req.url req.params) code) code
                  req.url (buildCacheKey req.url req.params) = some code
              rw [hkc, redisSet_self, hurlc]
            · show redisSet (redisSet W.redis (buildCacheKey req.url req.params) code) code
                  req.url (buildCacheKey req.url req.params) = some code
              rw [redisSet_ne _ _ _ _ hkc, redisSet_self]
          have hmysql : W1.mysql = W.mysql ++
              [{ shortCode := code, originalURL := req.url,
                 params := marshalParams req.params, createdAt := now₁,
                 expireAt := expireAt, status := 1 }] := by rw [← hw]
          obtain ⟨sl', hok', hsc'⟩ :=
            find?_active_code W1.mysql code
              { shortCode := code, originalURL := req.url,
                params := marshalParams req.params, createdAt := now₁,
                expireAt := expireAt, status := 1 }
              (by rw [hmysql]; simp) rfl rfl
          have hfast2 : cacheFastPath domain W1 (buildCacheKey req.url req.params) =
              some (buildResponse domain sl') := by
            simp [cacheFastPath, hcache, hcne, hok']
          refine ⟨buildResponse domain sl', W1, ?_, ?_⟩
          · unfold Generate
            rw [if_neg hurl, hexp, hfast2]
          · rw [← hr]
            simp [buildResponse, hsc']

/-- A world with empty MySQL table, empty cache and empty Bloom set. -/
def emptyWorld : World :=
  { mysql := [], redis := fun _ => none, bloom := fun _ => false }

/-- The request used by the idempotence witness. -/
def witnessReq : GenerateRequest :=
  { url := "https://a.com", params := [], expireAt := "" }

/-- Witness for C4: concretely generating for `"https://a.com"` on the
empty world and generating again on the resulting world yields the same
short code. -/
theorem generate_idempotent_witness :
    ∃ r2 W2,
      Generate "https://s.example.com" (fun _ => none) 0
          (Generate "https://s.example.com" (fun _ => none) 0 emptyWorld witnessReq).2
          witnessReq = (.ok r2, W2) ∧
      r2.shortCode = Encode ((hashString "https://a.com" + 0) % 2 ^ 64) MinLength := by
  have h1 : Generate "https://s.example.com" (fun _ => none) 0 emptyWorld witnessReq =
      ((Generate "https://s.example.com" (fun _ => none) 0 emptyWorld witnessReq).1,
        (Generate "https://s.example.com" (fun _ => none) 0 emptyWorld witnessReq).2) := rfl
  have h2 : (Generate "https://s.example.com" (fun _ => none) 0 emptyWorld witnessReq).1 =
      .ok (buildResponse "https://s.example.com"
        { shortCode := Encode ((hashString "https://a.com" + 0) % 2 ^ 64) MinLength,
          originalURL := "https://a.com", params := none, createdAt := 0,
          expireAt := none, status := 1 }) := rfl
  obtain ⟨r2, W2, heq, hcode⟩ :=
    generate_idempotent "https://s.example.com" (fun _ => none) 0 0 emptyWorld witnessReq
      (by decide)
      (buildResponse "https://s.example.com"
        { shortCode := Encode ((hashString "https://a.com" + 0) % 2 ^ 64) MinLength,
          originalURL := "https://a.com", params := none, createdAt := 0,
          expireAt := none, status := 1 })
      (Generate "https://s.example.com" (fun _ => none) 0 emptyWorld witnessReq).2
      (by rw [h1, h2])
  exact ⟨r2, W2, heq, by rw [hcode]; rfl⟩

/-- A disabled row for code `"AAAA"`. -/
def disabledRow : ShortLink :=
  { shortCode := "AAAA", originalURL := "https://x.example", params := none,
    createdAt := 0, expireAt := none, status := 0 }

/-- A world whose only durable entry is `disabledRow`, with an empty cache. -/
def disabledWorld : World :=
  { mysql := [disabledRow], redis := fun _ => none, bloom := fun _ => false }

/-- Counterexample to C3 as stated: code `"AAAA"` is not in the cache, its
stored entry exists with `status = disabled`, yet `Get` returns the
not-found condition — not the expired/inactive condition the claim
requires ("never not-found"). -/
theorem resolve_disabled_yields_notFound :
    disabledWorld.redis "AAAA" = none ∧
    (∃ sl ∈ disabledWorld.mysql, sl.shortCode = "AAAA" ∧ sl.status = 0) ∧
    (Get disabledWorld 0 "AAAA").1 = .error .notFound ∧
    SvcError.notFound ≠ SvcError.expired :=
  ⟨rfl, ⟨disabledRow, by simp [disabledWorld], rfl, rfl⟩, rfl, by decide⟩

/-- An active row for code `"BBBB"` that expired at instant 5. -/
def expiredRow : ShortLink :=
  { shortCode := "BBBB", originalURL := "https://y.example", params := none,
    createdAt := 0, expireAt := some 5, status := 1 }

/-- A world whose only durable entry is `expiredRow`, with an empty cache. -/
def expiredWorld : World :=
  { mysql := [expiredRow], redis := fun _ => none, bloom := fun _ => false }

/-- Witness for C3 (amended): an unknown code resolves to not-found, and an
active-but-expired code resolves to expired/inactive (at `now = 10 > 5`). -/
theorem resolve_code_conditions_witness :
    (Get disabledWorld 0 "ZZZZ").1 = .error .notFound ∧
    (Get expiredWorld 10 "BBBB").1 = .error .expired := by
  constructor
  · refine (resolve_code_conditions disabledWorld 0 "ZZZZ" rfl).1 ?_
    intro sl hmem hc
    simp only [disabledWorld, List.mem_singleton] at hmem
    subst hmem
    exact absurd hc (by decide)
  · exact (resolve_code_conditions expiredWorld 10 "BBBB" rfl).2 expiredRow rfl 5 rfl
      (by norm_num)

/-! ## The net/url fragment used by the services

Go's `net/url` is a standard-library boundary; the services use
`url.Parse`, `URL.Query`, `Values.Set`, `Values.Encode` and
`URL.String`.  The model below embeds the fragment those calls exercise:
scheme splitting with its "missing protocol scheme" error, fragment and
query cutting, authority/host extraction (userinfo stripped, port kept),
query parsing/escaping, and re-serialization.  Host and percent-escape
validation of non-query components (error paths the inputs under study
never reach) are not modelled. -/

/-- A parsed URL: the fields of `url.URL` the services read or write
(`Scheme`, `Host`, the remaining opaque-or-path text, `RawQuery`). -/
structure GoURL where
  scheme : String
  host : String
  path : String
  rawQuery : String
  deriving DecidableEq

/-- `getscheme` from net/url, scanning `s` at position `i` with the whole
input kept for the "no scheme" outcomes: a `':'` at position 0 is the
"missing protocol scheme" parse error; a scheme must start with a letter
and continue with letters, digits or `+ - .`. -/
def getSchemeAux (orig : List Char) : List Char → Nat → Except Unit (List Char × List Char)
  | [], _ => .ok ([], orig)
  | c :: rest, i =>
    if c = ':' then
      if i = 0 then .error () else .ok (orig.take i, rest)
    else if c.isAlpha then getSchemeAux orig rest (i + 1)
    else if c.isDigit || c = '+' || c = '-' || c = '.' then
      if i = 0 then .ok ([], orig) else getSchemeAux orig rest (i + 1)
    else .ok ([], orig)

/-- `getscheme` entry point. -/
def getScheme (s : List Char) : Except Unit (List Char × List Char) :=
  getSchemeAux s s 0

/-- Host from an authority: the text after the last `'@'` (userinfo
stripped; any port stays in the host, as in `url.URL.Host`). -/
def hostOfAuthority (auth : List Char) : List Char :=
  if auth.contains '@' then (auth.reverse.takeWhile (· ≠ '@')).reverse else auth

/-- The modelled `url.Parse`: cut the fragment at the first `'#'`, split
the scheme (propagating its error as `none`), cut the query at the first
`'?'`, then: a rest with a scheme that does not start with `'/'` is
opaque (empty host); a rest starting with `"//"` carries an authority up
to the next `'/'`; anything else is a plain path with empty host. -/
def parseURL (raw : String) : Option GoURL :=
  match getScheme (raw.data.takeWhile (· ≠ '#')) with
  | .error _ => none
  | .ok (scheme, rest) =>
    let beforeQ := rest.takeWhile (· ≠ '?')
    let rawQuery := (rest.dropWhile (· ≠ '?')).drop 1
    if scheme ≠ [] ∧ beforeQ.take 1 ≠ ['/'] then
      some { scheme := ⟨scheme⟩, host := "", path := ⟨beforeQ⟩, rawQuery := ⟨rawQuery⟩ }
    else if beforeQ.take 2 = ['/', '/'] then
      let afterSS := beforeQ.drop 2
      some { scheme := ⟨scheme⟩,
             host := ⟨hostOfAuthority (afterSS.takeWhile (· ≠ '/'))⟩,
             path := ⟨afterSS.dropWhile (· ≠ '/')⟩,
             rawQuery := ⟨rawQuery⟩ }
    else
      some { scheme := ⟨scheme⟩, host := "", path := ⟨beforeQ⟩, rawQuery := ⟨rawQuery⟩ }

/-- `url.URL.String` on the modelled fields: `scheme:`, `//host` when a
host is present, the opaque-or-path text, and `?rawQuery` when the query
is non-empty. -/
def GoURL.render (u : GoURL) : String :=
  (if u.scheme ≠ "" then u.scheme ++ ":" else "") ++
  (if u.host ≠ "" then "//" ++ u.host else "") ++
  u.path ++
  (if u.rawQuery ≠ "" then "?" ++ u.rawQuery else "")

/-- Split a character list at every occurrence of `sep`
(`strings.Split`; the empty input yields one empty segment). -/
def splitOnCh (sep : Char) : List Char → List (List Char)
  | [] => [[]]
  | c :: rest =>
    if c = sep then [] :: splitOnCh sep rest
    else
      match splitOnCh sep rest with
      | [] => [[c]]
      | seg :: segs => (c :: seg) :: segs

/-- Hex digit of `n < 16`, uppercase as Go emits it. -/
def hexDigit (n : Nat) : Char :=
  if n < 10 then Char.ofNat (48 + n) else Char.ofNat (55 + n)

/-- Numeric value of a hex digit character. -/
def hexVal (c : Char) : Nat :=
  if c.isDigit then c.toNat - 48
  else if 'a' ≤ c then c.toNat - 87
  else c.toNat - 55

/-- Hex digit test, as in net/url's `ishex`. -/
def isHexDigit (c : Char) : Bool :=
  c.isDigit || ('a' ≤ c && c ≤ 'f') || ('A' ≤ c && c ≤ 'F')

/-- `url.QueryUnescape` (query mode): `'+'` becomes a space, `%XX` decodes
to the byte `XX` (an invalid or truncated escape is the `EscapeError`),
other characters pass through. -/
def unescapeQuery : List Char → Option (List Char)
  | [] => some []
  | '%' :: a :: b :: rest =>
    if isHexDigit a && isHexDigit b then
      (unescapeQuery rest).map (fun r => Char.ofNat (hexVal a * 16 + hexVal b) :: r)
    else none
  | '%' :: _ => none
  | '+' :: rest => (unescapeQuery rest).map (' ' :: ·)
  | c :: rest => (unescapeQuery rest).map (c :: ·)

/-- `url.QueryEscape`: spaces to `'+'`, unreserved characters
(alphanumeric and `- _ . ~`) kept, everything else percent-encoded
byte-wise. -/
def escapeQuery : List Char → List Char
  | [] => []
  | c :: rest =>
    if c = ' ' then '+' :: escapeQuery rest
    else if c.isAlphanum || c = '-' || c = '_' || c = '.' || c = '~' then c :: escapeQuery rest
    else
      (charUTF8 c).foldr (fun b acc => '%' :: hexDigit (b / 16) :: hexDigit (b % 16) :: acc)
        (escapeQuery rest)

/-- `url.Values.Add`: append the value to the key's slice (the list keeps
one entry per key, in first-appearance order). -/
def valuesAdd (k v : String) : List (String × List String) → List (String × List String)
  | [] => [(k, [v])]
  | (k', vs) :: rest =>
    if k' = k then (k', vs ++ [v]) :: rest else (k', vs) :: valuesAdd k v rest

/-- `url.Values.Set`: replace the key's slice with the single value. -/
def valuesSet (k v : String) : List (String × List String) → List (String × List String)
  | [] => [(k, [v])]
  | (k', vs) :: rest =>
    if k' = k then (k', [v]) :: rest else (k', vs) :: valuesSet k v rest

/-- Lookup in a `url.Values`. -/
def valuesGet (m : List (String × List String)) (k : String) : Option (List String) :=
  (m.find? (fun p => p.1 == k)).map (fun p => p.2)

/-- `url.ParseQuery` as `URL.Query` uses it (errors are dropped): split on
`'&'`, skip empty segments and segments containing `';'`, cut each at the
first `'='` (a missing `'='` leaves an empty value), unescape both sides
(a failed unescape skips the segment), and accumulate with `Add`. -/
def parseQuery (raw : String) : List (String × List String) :=
  (splitOnCh '&' raw.data).foldl
    (fun m seg =>
      if seg.contains ';' then m
      else if seg = [] then m
      else
        match unescapeQuery (seg.takeWhile (· ≠ '=')),
            unescapeQuery ((seg.dropWhile (· ≠ '=')).drop 1) with
        | some k, some v => valuesAdd ⟨k⟩ ⟨v⟩ m
        | _, _ => m)
    []

/-- `url.Values.Encode`: keys sorted, each value escaped and emitted as
`k=v`, joined with `'&'`. -/
def valuesEncode (m : List (String × List String)) : String :=
  String.intercalate "&"
    ((sortByKey m).foldr
      (fun p acc =>
        p.2.map (fun v =>
          (⟨escapeQuery p.1.data⟩ : String) ++ "=" ++ (⟨escapeQuery v.data⟩ : String)) ++ acc)
      [])

/-! ## ExpandURL (internal/service/shortlink.go, lines 168-190) -/

/-- The merged query of `ExpandURL`: `query := u.Query()`, then
`query.Set(key, value)` for each supplied pair. -/
def mergedQuery (u : GoURL) (queryParams : List (String × String)) :
    List (String × List String) :=
  queryParams.foldl (fun q kv => valuesSet kv.1 kv.2 q) (parseQuery u.rawQuery)

/-- `ShortLinkService.ExpandURL`: resolve via `Get` (propagating its
failure), parse the stored URL (returning it unchanged with no error when
the parse fails), merge the supplied query parameters with
`Values.Set`, re-encode the query and re-serialize.  `queryParams` is the
Go `map[string]string` embedded as an association list (its keys are
distinct); `Set` is commutative across distinct keys, so the fold order
is immaterial. -/
def ExpandURL (W : World) (now : Int) (shortCode : String)
    (queryParams : List (String × String)) : Except SvcError String × World :=
  match Get W now shortCode with
  | (.error e, W') => (.error e, W')
  | (.ok sl, W') =>
    match parseURL sl.originalURL with
    | none => (.ok sl.originalURL, W')
    | some u =>
      (.ok (GoURL.render { u with rawQuery := valuesEncode (mergedQuery u queryParams) }), W')

/-! Values lemmas for the merge property. -/

theorem valuesGet_valuesSet_self (m : List (String × List String)) (k v : String) :
    valuesGet (valuesSet k v m) k = some [v] := by
  induction m with
  | nil =>
    simp only [valuesSet, valuesGet]
    rw [List.find?_cons_of_pos _ (by simp)]
    rfl
  | cons p rest ih =>
    rcases p with ⟨k', vs⟩
    simp only [valuesSet]
    by_cases h : k' = k
    · rw [if_pos h]
      simp only [valuesGet]
      rw [List.find?_cons_of_pos _ (by simp [h])]
      rfl
    · rw [if_neg h]
      simp only [valuesGet]
      rw [List.find?_cons_of_neg _ (by simp [h])]
      exact ih

theorem valuesGet_valuesSet_ne (m : List (String × List String)) (k v k' : String)
    (h : k' ≠ k) : valuesGet (valuesSet k v m) k' = valuesGet m k' := by
  induction m with
  | nil =>
    simp only [valuesSet, valuesGet]
    rw [List.find?_cons_of_neg _ (by simp [Ne.symm h])]
  | cons p rest ih =>
    rcases p with ⟨k'', vs⟩
    simp only [valuesSet]
    by_cases h2 : k'' = k
    · rw [if_pos h2]
      simp only [valuesGet]
      rw [List.find?_cons_of_neg _ (by simp [h2, Ne.symm h]),
        List.find?_cons_of_neg _ (by simp [h2, Ne.symm h])]
    · rw [if_neg h2]
      by_cases h3 : k'' = k'
      · simp only [valuesGet]
        rw [List.find?_cons_of_pos _ (by simp [h3]), List.find?_cons_of_pos _ (by simp [h3])]
      · simp only [valuesGet]
        rw [List.find?_cons_of_neg _ (by simp [h3]), List.find?_cons_of_neg _ (by simp [h3])]
        exact ih

theorem mergedQuery_preserve (params : List (String × String)) (k : String)
    (hk : k ∉ params.map Prod.fst) (m : List (String × List String)) :
    valuesGet (params.foldl (fun q kv => valuesSet kv.1 kv.2 q) m) k = valuesGet m k := by
  induction params generalizing m with
  | nil => rfl
  | cons p rest ih =>
    simp only [List.map_cons, List.mem_cons, not_or] at hk
    simp only [List.foldl_cons]
    rw [ih hk.2, valuesGet_valuesSet_ne _ _ _ _ hk.1]

theorem mergedQuery_supplied (params : List (String × String))
    (hnodup : (params.map Prod.fst).Nodup) (kv : String × String) (hmem : kv ∈ params)
    (m : List (String × List String)) :
    valuesGet (params.foldl (fun q kv => valuesSet kv.1 kv.2 q) m) kv.1 = some [kv.2] := by
  induction params generalizing m with
  | nil => cases hmem
  | cons p rest ih =>
    simp only [List.map_cons, List.nodup_cons] at hnodup
    simp only [List.foldl_cons]
    rcases List.mem_cons.mp hmem with h | h
    · subst h
      rw [mergedQuery_preserve rest kv.1 hnodup.1, valuesGet_valuesSet_self]
    · exact ih hnodup.2 h _

/-- C7: for every resolvable code, `ExpandURL` merges the caller-supplied
query parameters into the stored URL's existing query string with
last-writer-wins semantics — each supplied key maps to exactly its
supplied value in the merged query, keys not supplied keep the stored
values — and re-serializes; if the stored URL fails to parse, `ExpandURL`
returns the stored URL unmodified with no error. -/
theorem expand_url_merge (W : World) (now : Int) (code : String)
    (queryParams : List (String × String)) (hnodup : (queryParams.map Prod.fst).Nodup)
    (sl : ShortLink) (W' : World) (hget : Get W now code = (.ok sl, W')) :
    (parseURL sl.originalURL = none →
      ExpandURL W now code queryParams = (.ok sl.originalURL, W')) ∧
    (∀ u, parseURL sl.originalURL = some u →
      ExpandURL W now code queryParams =
        (.ok (GoURL.render { u with rawQuery := valuesEncode (mergedQuery u queryParams) }),
          W') ∧
      (∀ kv ∈ queryParams, valuesGet (mergedQuery u queryParams) kv.1 = some [kv.2]) ∧
      (∀ k, k ∉ queryParams.map Prod.fst →
        valuesGet (mergedQuery u queryParams) k = valuesGet (parseQuery u.rawQuery) k)) := by
  constructor
  · intro hparse
    simp only [ExpandURL, hget, hparse]
  · intro u hparse
    refine ⟨?_, ?_, ?_⟩
    · simp only [ExpandURL, hget, hparse]
    · intro kv hmem
      exact mergedQuery_supplied queryParams hnodup kv hmem _
    · intro k hk
      exact mergedQuery_preserve queryParams k hk _

/-- A world whose cache maps `"AAAA"` to `"https://x.com"` and `"BBBB"`
to `"https://x.com?a=0"`. -/
def expandWorld : World :=
  { mysql := [],
    redis := fun k =>
      if k = "AAAA" then some "https://x.com"
      else if k = "BBBB" then some "https://x.com?a=0" else none,
    bloom := fun _ => false }

/-- Witness for C7, on the spec's own examples: merging `a=1, b=2` into
stored `"https://x.com"` yields `"https://x.com?a=1&b=2"`, and a supplied
`a=1` overwrites a stored `?a=0`. -/
theorem expand_url_merge_witness :
    ExpandURL expandWorld 0 "AAAA" [("a", "1"), ("b", "2")] =
      (.ok "https://x.com?a=1&b=2", expandWorld) ∧
    ExpandURL expandWorld 0 "BBBB" [("a", "1")] =
      (.ok "https://x.com?a=1", expandWorld) := by
  constructor
  · have h := (expand_url_merge expandWorld 0 "AAAA" [("a", "1"), ("b", "2")] (by decide)
        { shortCode := "AAAA", originalURL := "https://x.com", params := none,
          createdAt := 0, expireAt := none, status := 0 } expandWorld rfl).2
        { scheme := "https", host := "x.com", path := "", rawQuery := "" } rfl
    rw [h.1]
    rfl
  · have h := (expand_url_merge expandWorld 0 "BBBB" [("a", "1")] (by decide)
        { shortCode := "BBBB", originalURL := "https://x.com?a=0", params := none,
          createdAt := 0, expireAt := none, status := 0 } expandWorld rfl).2
        { scheme := "https", host := "x.com", path := "", rawQuery := "a=0" } rfl
    rw [h.1]
    rfl

/-! ## extractSource (internal/service/analytics.go, lines 93-132) -/

/-- `strings.Contains`: `pat` occurs as a contiguous run of `l`. -/
def listHasSub (pat : List Char) : List Char → Bool
  | [] => pat.isPrefixOf []
  | c :: rest => pat.isPrefixOf (c :: rest) || listHasSub pat rest

/-- `strings.Contains` on strings. -/
def strContains (s pat : String) : Bool := listHasSub pat.data s.data

/-- `AnalyticsService.extractSource`: empty referer → `"direct"`;
unparseable referer → `"unknown"`; otherwise the referer's host with a
leading `"www."` stripped, classified by first-match substring against
the fixed keyword list, falling back to the second-to-last dot-separated
label when the host has at least two labels, and to the host itself
otherwise. -/
def extractSource (referer : String) : String :=
  if referer = "" then "direct"
  else
    match parseURL referer with
    | none => "unknown"
    | some u =>
      let host : String :=
        if "www.".data.isPrefixOf u.host.data then ⟨u.host.data.drop 4⟩ else u.host
      if strContains host "google" then "google"
      else if strContains host "baidu" then "baidu"
      else if strContains host "bing" then "bing"
      else if strContains host "weibo" then "weibo"
      else if strContains host "weixin" || strContains host "mp.weixin.qq.com" then "wechat"
      else if strContains host "qq" then "qq"
      else if strContains host "zhihu" then "zhihu"
      else
        let parts := splitOnCh '.' host.data
        if parts.length ≥ 2 then ⟨parts.getD (parts.length - 2) []⟩
        else host

/-- C8: `extractSource` maps an empty referer to `"direct"`, an
unparseable referer to `"unknown"` (shown both on the spec's concrete
example and for every referer the URL parser rejects), classifies by
first-match keyword on the `www.`-stripped host (`"https://www.google.com/search"`
→ `"google"`), falls back to the second-to-last dot-separated host label
(`"https://blog.example.com"` → `"example"`), and returns a bare
single-label host as-is (`"https://localhost"` → `"localhost"`). -/
theorem extract_source_spec :
    extractSource "" = "direct" ∧
    extractSource "://bad" = "unknown" ∧
    (∀ r, r ≠ "" → parseURL r = none → extractSource r = "unknown") ∧
    extractSource "https://www.google.com/search" = "google" ∧
    extractSource "https://blog.example.com" = "example" ∧
    extractSource "https://localhost" = "localhost" := by
  refine ⟨rfl, rfl, ?_, rfl, rfl, rfl⟩
  intro r hr hp
  unfold extractSource
  rw [if_neg hr, hp]

/-- Witness for C8: the universal unparseable clause applied at the
referer `":"` (a colon cannot start a scheme). -/
theorem extract_source_spec_witness : extractSource ":" = "unknown" :=
  extract_source_spec.2.2.1 ":" (by decide) rfl

/-! ## Analytics aggregation (internal/service/analytics.go) -/

/-- `model.Stats`. -/
structure Stats where
  pv : Int
  uv : Int
  deriving DecidableEq

/-- `model.SourceStat`. -/
structure SourceStat where
  source : String
  count : Int
  deriving DecidableEq, Inhabited

/-- `model.AnalyticsResponse`. -/
structure AnalyticsResponse where
  shortCode : String
  pv : Int
  uv : Int
  topSources : List SourceStat
  deriving DecidableEq

/-- The read-side Redis calls `AnalyticsService` composes, as oracles:
`GetPV`, `GetUV` and `GetSources` each either return a value or error. -/
structure AnalyticsReads where
  getPV : String → Except Unit Int
  getUV : String → Except Unit Int
  getSources : String → Except Unit (List (String × Int))

/-- `AnalyticsService.GetStats`: a failed PV or UV read is logged and
treated as zero; the Go function always returns a `nil` error, so the
embedding returns the value directly. -/
def GetStats (E : AnalyticsReads) (shortCode : String) : Stats :=
  { pv := match E.getPV shortCode with | .ok v => v | .error _ => 0
    uv := match E.getUV shortCode with | .ok v => v | .error _ => 0 }

/-- One pass `i` of the nested sort loop of `getTopSources`
(`for j := i + 1; j < len; j++ { if stats[j].Count > stats[i].Count
swap }`). -/
def sortPass (stats : Array SourceStat) (i : Nat) : Array SourceStat :=
  (List.range stats.size).foldl
    (fun acc j =>
      if i < j then
        if (acc.getD j default).count > (acc.getD i default).count then
          (acc.set! i (acc.getD j default)).set! j (acc.getD i default)
        else acc
      else acc)
    stats

/-- `AnalyticsService.getTopSources`: empty input short-circuits to the
empty slice; otherwise the (map-iteration-ordered) counts are sorted
descending by the nested swap loop and truncated to `limit`. -/
def getTopSources (sources : List (String × Int)) (limit : Nat) : List SourceStat :=
  if sources.length = 0 then []
  else
    let stats := sources.map (fun p => { source := p.1, count := p.2 : SourceStat })
    let sorted := ((List.range stats.length).foldl (fun acc i => sortPass acc i)
      stats.toArray).toList
    if limit < sorted.length then sorted.take limit else sorted

/-- `AnalyticsService.GetAnalytics`: `GetStats` (never errors), then the
source counters — a failed `GetSources` read is logged and replaced by an
empty map — then `getTopSources` with the fixed top-N of 10. -/
def GetAnalytics (E : AnalyticsReads) (shortCode : String) : AnalyticsResponse :=
  { shortCode := shortCode
    pv := (GetStats E shortCode).pv
    uv := (GetStats E shortCode).uv
    topSources :=
      getTopSources (match E.getSources shortCode with | .ok s => s | .error _ => []) 10 }

/-- C9: when the per-day source-counter read fails, `GetAnalytics` does
not error because of it — it still returns the PV and UV obtained from
`GetStats`, with an empty source list. -/
theorem analytics_tolerates_source_failure (E : AnalyticsReads) (code : String)
    (h : E.getSources code = .error ()) :
    GetAnalytics E code =
      { shortCode := code, pv := (GetStats E code).pv, uv := (GetStats E code).uv,
        topSources := [] } := by
  unfold GetAnalytics
  rw [h]
  rfl

/-- Reads whose source-counter read always fails while PV and UV read 5
and 3. -/
def failingSourcesReads : AnalyticsReads :=
  { getPV := fun _ => .ok 5, getUV := fun _ => .ok 3, getSources := fun _ => .error () }

/-- Witness for C9: on `failingSourcesReads`, the full response is PV 5,
UV 3 and no sources. -/
theorem analytics_tolerates_source_failure_witness :
    GetAnalytics failingSourcesReads "c" =
      { shortCode := "c", pv := 5, uv := 3, topSources := [] } := by
  rw [analytics_tolerates_source_failure failingSourcesReads "c" rfl]
  rfl

/-! ## RecordAccess (internal/service/analytics.go, lines 28-49) -/

/-- The cache-side counter state `RecordAccess` mutates: the PV counter
per code (`INCR`), the per-code per-day unique-visitor sets (`SADD`), and
the per-code per-source per-day counters (`INCR`). -/
structure AnalyticsState where
  pv : String → Int
  uv : String → String → List String
  src : String → String → String → Int

/-- `AnalyticsService.RecordAccess` on the success path (each of the
three updates is independently best-effort in Go — a failed one is
logged and the rest still run — and the function always returns `nil`):
increment PV; add the visitor id `day ++ ":" ++ clientIP` to the per-day
unique set; derive the source label from the referer and, only when the
label is non-empty, increment the per-day `(code, source)` counter.  The
`userAgent` argument is accepted and unused, as in the source; `day` is
`time.Now().Format("2006-01-02")` passed explicitly. -/
def RecordAccess (S : AnalyticsState) (day shortCode clientIP _userAgent referer : String) :
    AnalyticsState :=
  let S1 : AnalyticsState :=
    { S with pv := fun c => if c = shortCode then S.pv c + 1 else S.pv c }
  let S2 : AnalyticsState :=
    { S1 with uv := fun c d =>
        if c = shortCode ∧ d = day then
          (if (day ++ ":" ++ clientIP) ∈ S1.uv c d then S1.uv c d
           else (day ++ ":" ++ clientIP) :: S1.uv c d)
        else S1.uv c d }
  if extractSource referer ≠ "" then
    { S2 with src := fun c s d =>
        if c = shortCode ∧ s = extractSource referer ∧ d = day then S2.src c s d + 1
        else S2.src c s d }
  else S2

/-- C10: a non-empty referer that parses successfully but has an empty
host (for example a relative path) makes `extractSource` return the empty
string — neither `"direct"` nor `"unknown"` nor any domain label — and
`RecordAccess` consequently performs no source-counter update for the
visit while still updating PV and UV. -/
theorem empty_host_referer_no_source (r : String) (hr : r ≠ "")
    (u : GoURL) (hp : parseURL r = some u) (hh : u.host = "") :
    extractSource r = "" ∧
    ∀ (S : AnalyticsState) (day code ip ua : String),
      (RecordAccess S day code ip ua r).src = S.src ∧
      (RecordAccess S day code ip ua r).pv code = S.pv code + 1 ∧
      (day ++ ":" ++ ip) ∈ (RecordAccess S day code ip ua r).uv code day := by
  have hsrc : extractSource r = "" := by
    unfold extractSource
    rw [if_neg hr]
    simp only [hp]
    rw [hh]
    rfl
  refine ⟨hsrc, ?_⟩
  intro S day code ip ua
  unfold RecordAccess
  rw [hsrc]
  rw [if_neg (show ¬(("" : String) ≠ "") by simp)]
  refine ⟨rfl, ?_, ?_⟩
  · show (if code = code then S.pv code + 1 else S.pv code) = S.pv code + 1
    rw [if_pos rfl]
  · show (day ++ ":" ++ ip) ∈
      (if code = code ∧ day = day then
        (if (day ++ ":" ++ ip) ∈ S.uv code day then S.uv code day
         else (day ++ ":" ++ ip) :: S.uv code day)
       else S.uv code day)
    rw [if_pos ⟨rfl, rfl⟩]
    by_cases hv : (day ++ ":" ++ ip) ∈ S.uv code day
    · rw [if_pos hv]; exact hv
    · rw [if_neg hv]; exact List.mem_cons_self _ _

/-- The all-zero counter state. -/
def initState : AnalyticsState :=
  { pv := fun _ => 0, uv := fun _ _ => [], src := fun _ _ _ => 0 }

/-- Witness for C10 at the relative referer `"/foo"` on the all-zero
state. -/
theorem empty_host_referer_no_source_witness :
    extractSource "/foo" = "" ∧
    (RecordAccess initState "2026-10-11" "AAAA" "1.2.3.4" "ua" "/foo").src = initState.src ∧
    (RecordAccess initState "2026-10-11" "AAAA" "1.2.3.4" "ua" "/foo").pv "AAAA" =
      initState.pv "AAAA" + 1 ∧
    ("2026-10-11" ++ ":" ++ "1.2.3.4") ∈
      (RecordAccess initState "2026-10-11" "AAAA" "1.2.3.4" "ua" "/foo").uv "AAAA"
        "2026-10-11" := by
  have h := empty_host_referer_no_source "/foo" (by decide)
    { scheme := "", host := "", path := "/foo", rawQuery := "" } rfl rfl
  have h2 := h.2 initState "2026-10-11" "AAAA" "1.2.3.4" "ua"
  exact ⟨h.1, h2.1, h2.2.1, h2.2.2⟩

end Octopus
